import Mathlib

/-!
# Verification of the CryptoTechAnalyzer proxy server

Shallow embedding of the Express backend (`server.js`): the per-IP sliding
window rate limiter, the TTL cache, the three route handlers with their
cache-first control flow, and the candlestick transform of the history
endpoint.  Timestamps are modelled as `Int` milliseconds (JavaScript
`Date.now()`); prices and volumes as `Rat`; upstream responses are passed to
a handler as an explicit `Except` value standing for the awaited axios call.
-/

/-- Association-list maps with string keys: model of both the JavaScript
`Map` used by the rate limiter (`requestCounts`) and the NodeCache store.
`setA` replaces an existing binding in place or appends a new one at the end,
matching `Map.set` insertion-order semantics. -/
def getA {α : Type} : List (String × α) → String → Option α
  | [], _ => none
  | (k', v) :: rest, k => if k' = k then some v else getA rest k

def setA {α : Type} : List (String × α) → String → α → List (String × α)
  | [], k, v => [(k, v)]
  | (k', v') :: rest, k, v =>
      if k' = k then (k, v) :: rest else (k', v') :: setA rest k v

/-- The key set of an association-list map, in insertion order. -/
def keysOf {α : Type} (m : List (String × α)) : List String :=
  m.map Prod.fst

/-- The `rateLimit` configuration object (src lines 30-34). -/
structure RateLimitCfg where
  windowMs : Int
  max : Nat
  message : String

def rateLimit : RateLimitCfg :=
  { windowMs := 60 * 1000, max := 30,
    message := "Too many requests, please try again later." }

/-- State of `requestCounts` (src line 36): per-ip list of timestamps. -/
abbrev RLMap := List (String × List Int)

/-- The `rateLimiter` middleware (src lines 38-57): prune the client's
timestamps to the trailing window, deny without recording when the pruned
list has reached the ceiling, otherwise record `now` and allow. -/
def rateLimiter (requestCounts : RLMap) (ip : String) (now : Int) :
    Bool × RLMap :=
  let windowStart := now - rateLimit.windowMs
  let counts1 :=
    if (getA requestCounts ip).isNone then setA requestCounts ip []
    else requestCounts
  let requests := (getA counts1 ip).getD []
  let validRequests := requests.filter (fun time => decide (time > windowStart))
  let counts2 := setA counts1 ip validRequests
  if rateLimit.max ≤ validRequests.length then
    (false, counts2)
  else
    (true, setA counts2 ip (validRequests ++ [now]))

/-- One candlestick point produced by the history transform
(src lines 152-159).  `time` is the UTC day index of the source timestamp
(`new Date(ms).toISOString().split('T')[0]` is day-granular and injective on
day indices, so we keep the day number). -/
structure Candle where
  time : Int
  open_ : Rat
  high : Rat
  low : Rat
  close : Rat
  volume : Rat
deriving DecidableEq, Repr

/-- Day index of a millisecond UTC timestamp, the day-granularity content of
`new Date(ms).toISOString().split('T')[0]` (src line 146). -/
def dayOf (t : Int) : Int :=
  Int.fdiv t 86400000

/-- Candle emitted at a loop iteration `i > 0` of the transform: `prev` is
`prices[i-1]`, `p` is `prices[i]`, `v` is `volumes[i]` (src lines 150-160). -/
def candleOf (prev p v : Int × Rat) : Candle :=
  { time := dayOf p.1, open_ := prev.2, high := max prev.2 p.2,
    low := min prev.2 p.2, close := p.2, volume := v.2 }

/-- Error message of the TypeError raised by `volumes[i][1]` when
`volumes[i]` is `undefined` (src line 148). -/
def volumeIndexError : String :=
  "Cannot read properties of undefined (reading '1')"

/-- Iterations `i ≥ 1` of the transform loop (src lines 145-161): `prev` is
`prices[i-1]`, `ps` the remaining prices, `vs` the remaining volumes.  Each
iteration reads `volumes[i][1]` before deciding anything, so a missing
volume entry aborts the whole loop with a thrown error. -/
def candleLoop (prev : Int × Rat) :
    List (Int × Rat) → List (Int × Rat) → Except String (List Candle)
  | [], _ => .ok []
  | _ :: _, [] => .error volumeIndexError
  | p :: ps, v :: vs =>
      match candleLoop p ps vs with
      | .error e => .error e
      | .ok rest => .ok (candleOf prev p v :: rest)

/-- The whole transform loop (src lines 141-161), iteration `i = 0`
included: that iteration also reads `volumes[0][1]` (throwing when absent)
but pushes nothing, only seeding `prev`. -/
def buildCandles (prices volumes : List (Int × Rat)) :
    Except String (List Candle) :=
  match prices, volumes with
  | [], _ => .ok []
  | _ :: _, [] => .error volumeIndexError
  | p :: ps, _ :: vs => candleLoop p ps vs

/-- Values stored in the cache and served as JSON bodies: the raw upstream
payload (markets / detail endpoints) or a transformed candlestick array
(history endpoint). -/
inductive Value
  | raw (payload : String)
  | candles (cs : List Candle)
deriving DecidableEq, Repr

/-- A NodeCache entry: stored value plus the insertion timestamp. -/
structure CacheEntry where
  value : Value
  storedAt : Int
deriving DecidableEq, Repr

abbrev Cache := List (String × CacheEntry)

/-- Modelled from the spec: the `node-cache` library behind
`new NodeCache({ stdTTL: 300 })` (src line 21) is a third-party dependency
whose source is not part of this repository; per the spec's TTL Cache
contract, `get` returns the stored value while the entry's age is under
300 seconds and "must treat an entry whose age ≥ 300s as absent". -/
def cacheGet (c : Cache) (k : String) (now : Int) : Option Value :=
  match getA c k with
  | none => none
  | some e => if now - e.storedAt < 300 * 1000 then some e.value else none

/-- Modelled from the spec: `set(key, value)` "stores with current
timestamp, overwriting any existing entry for that key". -/
def cacheSet (c : Cache) (k : String) (v : Value) (now : Int) : Cache :=
  setA c k { value := v, storedAt := now }

/-- An axios error's optional `response` field: HTTP status and data
payload of a received non-2xx upstream reply. -/
structure UpResponse where
  status : Nat
  data : String
deriving DecidableEq, Repr

/-- An axios error: `response` present for non-2xx replies, absent for
network errors; `message` always present. -/
structure UpErr where
  response : Option UpResponse
  message : String
deriving DecidableEq, Repr

/-- Embedding of `error.response?.status || 500` (src lines 83, 114, 167): optional
chaining yields `undefined` without a response, and JavaScript `||` also
rejects a falsy status `0`; both fall back to `500`. -/
def errorStatusOf (e : UpErr) : Nat :=
  match e.response with
  | some r => if r.status = 0 then 500 else r.status
  | none => 500

/-- Embedding of `error.response?.data || error.message` (src lines 85, 116, 169):
falls back to the error message without a response or with a falsy (empty)
data payload. -/
def errorDetailsOf (e : UpErr) : String :=
  match e.response with
  | some r => if r.data = "" then e.message else r.data
  | none => e.message

/-- A JSON response body: a served value, the rate-limit error object
`{ error }`, or a handler catch-block object `{ error, details }`. -/
inductive Body
  | payload (v : Value)
  | rateLimitError (error : String)
  | fetchError (error : String) (details : String)
deriving DecidableEq, Repr

/-- Observable side effects of handling one request, in order. -/
inductive Effect
  | cacheRead (k : String)
  | cacheWrite (k : String)
  | fetch
deriving DecidableEq, Repr

/-- Everything observable about one handled request: HTTP status, JSON
body, the rate-limiter map and cache after the request, and the effect
trace. -/
structure Outcome where
  status : Nat
  body : Body
  rl : RLMap
  cache : Cache
  effects : List Effect
deriving DecidableEq, Repr

/-- Handler of `GET /api/cryptocurrencies` (src lines 60-88), rate-limiter middleware
included.  `upstream` stands for the awaited axios call made on a cache
miss. -/
def handleCryptocurrencies (requestCounts : RLMap) (cache : Cache)
    (ip : String) (now : Int) (upstream : Except UpErr Value) : Outcome :=
  match rateLimiter requestCounts ip now with
  | (false, rl) =>
      { status := 429, body := .rateLimitError rateLimit.message,
        rl := rl, cache := cache, effects := [] }
  | (true, rl) =>
      let cacheKey := "cryptocurrencies"
      match cacheGet cache cacheKey now with
      | some cachedData =>
          { status := 200, body := .payload cachedData, rl := rl,
            cache := cache, effects := [.cacheRead cacheKey] }
      | none =>
          match upstream with
          | .ok data =>
              { status := 200, body := .payload data, rl := rl,
                cache := cacheSet cache cacheKey data now,
                effects := [.cacheRead cacheKey, .fetch, .cacheWrite cacheKey] }
          | .error e =>
              { status := errorStatusOf e,
                body := .fetchError "Failed to fetch cryptocurrency data"
                  (errorDetailsOf e),
                rl := rl, cache := cache,
                effects := [.cacheRead cacheKey, .fetch] }

/-- Handler of `GET /api/cryptocurrency/:id` (src lines 90-119). -/
def handleCryptocurrencyDetail (requestCounts : RLMap) (cache : Cache)
    (ip : String) (now : Int) (id : String)
    (upstream : Except UpErr Value) : Outcome :=
  match rateLimiter requestCounts ip now with
  | (false, rl) =>
      { status := 429, body := .rateLimitError rateLimit.message,
        rl := rl, cache := cache, effects := [] }
  | (true, rl) =>
      let cacheKey := "crypto_" ++ id
      match cacheGet cache cacheKey now with
      | some cachedData =>
          { status := 200, body := .payload cachedData, rl := rl,
            cache := cache, effects := [.cacheRead cacheKey] }
      | none =>
          match upstream with
          | .ok data =>
              { status := 200, body := .payload data, rl := rl,
                cache := cacheSet cache cacheKey data now,
                effects := [.cacheRead cacheKey, .fetch, .cacheWrite cacheKey] }
          | .error e =>
              { status := errorStatusOf e,
                body := .fetchError "Failed to fetch cryptocurrency details"
                  (errorDetailsOf e),
                rl := rl, cache := cache,
                effects := [.cacheRead cacheKey, .fetch] }

/-- The history endpoint's cache key `` `history_${id}_${days}` ``
(src line 125). -/
def historyCacheKey (id days : String) : String :=
  "history_" ++ id ++ "_" ++ days

/-- Handler of `GET /api/cryptocurrency/:id/history` (src lines 121-172).  On a cache
miss the upstream reply carries the `prices` and `total_volumes` series;
the transform runs inside the handler's try block, so a throw inside it is
caught by the same catch (a TypeError has no `response`, hence status 500
and `details = error.message`). -/
def handleHistory (requestCounts : RLMap) (cache : Cache) (ip : String)
    (now : Int) (id : String) (days : String)
    (upstream : Except UpErr (List (Int × Rat) × List (Int × Rat))) :
    Outcome :=
  match rateLimiter requestCounts ip now with
  | (false, rl) =>
      { status := 429, body := .rateLimitError rateLimit.message,
        rl := rl, cache := cache, effects := [] }
  | (true, rl) =>
      let cacheKey := historyCacheKey id days
      match cacheGet cache cacheKey now with
      | some cachedData =>
          { status := 200, body := .payload cachedData, rl := rl,
            cache := cache, effects := [.cacheRead cacheKey] }
      | none =>
          match upstream with
          | .error e =>
              { status := errorStatusOf e,
                body := .fetchError "Failed to fetch historical price data"
                  (errorDetailsOf e),
                rl := rl, cache := cache,
                effects := [.cacheRead cacheKey, .fetch] }
          | .ok (prices, volumes) =>
              match buildCandles prices volumes with
              | .error msg =>
                  { status := 500,
                    body := .fetchError "Failed to fetch historical price data"
                      msg,
                    rl := rl, cache := cache,
                    effects := [.cacheRead cacheKey, .fetch] }
              | .ok candlestickData =>
                  { status := 200, body := .payload (.candles candlestickData),
                    rl := rl,
                    cache := cacheSet cache cacheKey (.candles candlestickData)
                      now,
                    effects := [.cacheRead cacheKey, .fetch,
                      .cacheWrite cacheKey] }

/-- A sequence of `rateLimiter` calls for one fixed client: the list of
verdicts and the final map. -/
def runAdmits (m : RLMap) (ip : String) : List Int → List Bool × RLMap
  | [] => ([], m)
  | t :: ts =>
      let step := rateLimiter m ip t
      let rest := runAdmits step.2 ip ts
      (step.1 :: rest.1, rest.2)

/-- A sequence of `rateLimiter` calls by arbitrary clients: the final map. -/
def runCalls (m : RLMap) : List (String × Int) → RLMap
  | [] => m
  | (ip, t) :: rest => runCalls (rateLimiter m ip t).2 rest

/-! ## Association-list lemmas -/

theorem getA_setA_self {α : Type} (m : List (String × α)) (k : String)
    (v : α) : getA (setA m k v) k = some v := by
  induction m with
  | nil => simp [setA, getA]
  | cons hd tl ih =>
    obtain ⟨k', v'⟩ := hd
    by_cases h : k' = k <;> simp [setA, getA, h, ih]

theorem setA_setA {α : Type} (m : List (String × α)) (k : String)
    (v w : α) : setA (setA m k v) k w = setA m k w := by
  induction m with
  | nil => simp [setA]
  | cons hd tl ih =>
    obtain ⟨k', v'⟩ := hd
    by_cases h : k' = k <;> simp [setA, h, ih]

theorem keysOf_setA {α : Type} (m : List (String × α)) (k : String)
    (v : α) :
    keysOf (setA m k v) =
      if k ∈ keysOf m then keysOf m else keysOf m ++ [k] := by
  induction m with
  | nil => simp [setA, keysOf]
  | cons hd tl ih =>
    obtain ⟨k', v'⟩ := hd
    by_cases h : k' = k
    · subst h
      simp [setA, keysOf]
    · have hkk' : ¬k = k' := fun h' => h h'.symm
      simp only [setA, if_neg h, keysOf, List.map_cons, List.mem_cons]
      rw [show List.map Prod.fst (setA tl k v) = keysOf (setA tl k v) from rfl,
        ih]
      by_cases hk : k ∈ List.map Prod.fst tl
      · simp [keysOf, hk, hkk']
      · simp [keysOf, hk, hkk']

theorem getA_eq_none_iff {α : Type} (m : List (String × α)) (k : String) :
    getA m k = none ↔ k ∉ keysOf m := by
  induction m with
  | nil => simp [getA, keysOf]
  | cons hd tl ih =>
    obtain ⟨k', v'⟩ := hd
    have hcons : keysOf ((k', v') :: tl) = k' :: keysOf tl := rfl
    by_cases h : k' = k
    · subst h; simp [getA, hcons]
    · have hkk' : k ≠ k' := fun h' => h h'.symm
      have hgetA : getA ((k', v') :: tl) k = getA tl k := by simp [getA, h]
      rw [hgetA, ih, hcons]
      simp [hkk']

/-! ## Rate-limiter characterisation -/

/-- Closed form of one `rateLimiter` call: prune the client's list to the
trailing window, then deny on a full window (storing only the pruned list)
or record `now` and allow. -/
theorem rateLimiter_spec (m : RLMap) (ip : String) (now : Int) :
    rateLimiter m ip now =
      (let pruned := ((getA m ip).getD []).filter
          (fun t => decide (t > now - rateLimit.windowMs))
       if rateLimit.max ≤ pruned.length then (false, setA m ip pruned)
       else (true, setA m ip (pruned ++ [now]))) := by
  unfold rateLimiter
  cases h : getA m ip with
  | none => simp [h, getA_setA_self, setA_setA]
  | some l => simp [h, setA_setA]

/-! ## Candlestick-transform lemmas -/

theorem candleLoop_ok (ps : List (Int × Rat)) :
    ∀ (vs : List (Int × Rat)) (prev : Int × Rat), ps.length ≤ vs.length →
    ∃ cs, candleLoop prev ps vs = .ok cs ∧ cs.length = ps.length ∧
      ∀ (j : Nat) (pj vj pjm : Int × Rat), ps[j]? = some pj →
        vs[j]? = some vj → (prev :: ps)[j]? = some pjm →
        cs[j]? = some (candleOf pjm pj vj) := by
  induction ps with
  | nil =>
    intro vs prev _
    exact ⟨[], rfl, rfl, by intro j pj vj pjm h; simp at h⟩
  | cons p ps ih =>
    intro vs prev hlen
    cases vs with
    | nil => simp at hlen
    | cons v vs =>
      obtain ⟨cs, hcs, hlen', hidx⟩ := ih vs p (by simpa using hlen)
      refine ⟨candleOf prev p v :: cs, by simp [candleLoop, hcs],
        by simp [hlen'], ?_⟩
      intro j pj vj pjm hp hv hpm
      cases j with
      | zero =>
        simp only [List.getElem?_cons_zero, Option.some.injEq] at hp hv hpm
        subst hp; subst hv; subst hpm; simp
      | succ j =>
        simp only [List.getElem?_cons_succ] at hp hv hpm ⊢
        exact hidx j pj vj pjm hp hv hpm

theorem candleLoop_error (ps : List (Int × Rat)) :
    ∀ (vs : List (Int × Rat)) (prev : Int × Rat), vs.length < ps.length →
    candleLoop prev ps vs = .error volumeIndexError := by
  induction ps with
  | nil => intro vs prev h; simp at h
  | cons p ps ih =>
    intro vs prev hlen
    cases vs with
    | nil => rfl
    | cons v vs =>
      simp only [candleLoop, ih vs p (by simpa using hlen)]

theorem buildCandles_error (prices volumes : List (Int × Rat))
    (h : volumes.length < prices.length) :
    buildCandles prices volumes = .error volumeIndexError := by
  cases prices with
  | nil => simp at h
  | cons p ps =>
    cases volumes with
    | nil => rfl
    | cons v vs =>
      simp only [buildCandles]
      exact candleLoop_error ps vs p (by simpa using h)

/-- C1: for every upstream history response with N price points and matching
volumes (N ≥ 1) the transform emits exactly N−1 candles; candle i (1 ≤ i ≤
N−1) has open = price[i−1], close = price[i], high = max, low = min,
volume = volume[i], time = day of price[i]'s timestamp; the first price
point is never emitted.  In particular, the spec's worked example holds. -/
theorem claim1_history_transform :
    (∀ (prices volumes : List (Int × Rat)),
      volumes.length = prices.length → 1 ≤ prices.length →
      ∃ cs, buildCandles prices volumes = .ok cs ∧
        cs.length = prices.length - 1 ∧
        ∀ (i : Nat) (pi pim vi : Int × Rat), 1 ≤ i →
          prices[i]? = some pi → prices[i - 1]? = some pim →
          volumes[i]? = some vi →
          cs[i - 1]? = some
            { time := dayOf pi.1, open_ := pim.2,
              high := max pim.2 pi.2, low := min pim.2 pi.2,
              close := pi.2, volume := vi.2 }) ∧
    buildCandles [(0, 10), (86400000, 12), (172800000, 9)]
        [(0, 100), (86400000, 150), (172800000, 80)] =
      .ok [{ time := 1, open_ := 10, high := 12, low := 10, close := 12,
             volume := 150 },
           { time := 2, open_ := 12, high := 12, low := 9, close := 9,
             volume := 80 }] := by
  constructor
  · intro prices volumes hvl hN
    cases prices with
    | nil => simp at hN
    | cons p ps =>
      cases volumes with
      | nil => simp at hvl
      | cons v vs =>
        have hlen : ps.length ≤ vs.length := by
          simp only [List.length_cons] at hvl
          omega
        obtain ⟨cs, hcs, hclen, hidx⟩ := candleLoop_ok ps vs p hlen
        refine ⟨cs, hcs, by simp [hclen], ?_⟩
        intro i pi pim vi hi hp hpm hv
        obtain ⟨j, rfl⟩ : ∃ j, i = j + 1 := ⟨i - 1, by omega⟩
        have hp' : ps[j]? = some pi := by simpa using hp
        have hv' : vs[j]? = some vi := by simpa using hv
        have hpm' : (p :: ps)[j]? = some pim := by simpa using hpm
        simpa [candleOf] using hidx j pi vi pim hp' hv' hpm'
  · rfl

/-- Witness for C1 at the spec's worked example. -/
theorem claim1_history_transform_witness :
    ∃ cs,
      buildCandles [(0, 10), (86400000, 12), (172800000, 9)]
          [(0, 100), (86400000, 150), (172800000, 80)] = .ok cs ∧
      cs.length =
        ([((0 : Int), (10 : Rat)), (86400000, 12), (172800000, 9)]).length
          - 1 ∧
      ∀ (i : Nat) (pi pim vi : Int × Rat), 1 ≤ i →
        ([((0 : Int), (10 : Rat)), (86400000, 12), (172800000, 9)])[i]? =
          some pi →
        ([((0 : Int), (10 : Rat)), (86400000, 12), (172800000, 9)])[i - 1]? =
          some pim →
        ([((0 : Int), (100 : Rat)), (86400000, 150), (172800000, 80)])[i]? =
          some vi →
        cs[i - 1]? = some
          { time := dayOf pi.1, open_ := pim.2,
            high := max pim.2 pi.2, low := min pim.2 pi.2,
            close := pi.2, volume := vi.2 } :=
  claim1_history_transform.1
    [(0, 10), (86400000, 12), (172800000, 9)]
    [(0, 100), (86400000, 150), (172800000, 80)] (by decide) (by decide)

/-! ## Rate-limiter burst scenario -/

theorem runAdmits_append (m : RLMap) (ip : String) (as bs : List Int) :
    runAdmits m ip (as ++ bs) =
      ((runAdmits m ip as).1 ++ (runAdmits (runAdmits m ip as).2 ip bs).1,
       (runAdmits (runAdmits m ip as).2 ip bs).2) := by
  induction as generalizing m with
  | nil => simp [runAdmits]
  | cons a as ih => simp [runAdmits, ih]

/-- Any burst of calls whose recorded history and call times all lie in a
span shorter than the window is fully admitted while the total count stays
within the ceiling, and the whole burst is recorded. -/
theorem runAdmits_allowed (ip : String) (lo hi : Int)
    (hwin : hi - lo < rateLimit.windowMs) :
    ∀ (calls : List Int) (m : RLMap) (l : List Int),
      getA m ip = some l →
      (∀ t ∈ l, lo ≤ t ∧ t ≤ hi) → (∀ t ∈ calls, lo ≤ t ∧ t ≤ hi) →
      l.length + calls.length ≤ rateLimit.max →
      (runAdmits m ip calls).1 = List.replicate calls.length true ∧
      getA (runAdmits m ip calls).2 ip = some (l ++ calls) := by
  intro calls
  induction calls with
  | nil =>
    intro m l hget _ _ _
    exact ⟨rfl, by simpa using hget⟩
  | cons c cs ih =>
    intro m l hget hl hc hlen
    have hcbound := hc c (List.mem_cons_self c cs)
    have hpruned :
        l.filter (fun t => decide (t > c - rateLimit.windowMs)) = l := by
      apply List.filter_eq_self.mpr
      intro t ht
      have hb := hl t ht
      simp only [decide_eq_true_eq]
      omega
    have hnotfull : ¬rateLimit.max ≤ l.length := by
      simp only [List.length_cons] at hlen
      omega
    have hstep : rateLimiter m ip c = (true, setA m ip (l ++ [c])) := by
      rw [rateLimiter_spec]
      simp only [hget, Option.getD_some, hpruned, if_neg hnotfull]
    have hrest := ih (setA m ip (l ++ [c])) (l ++ [c])
      (getA_setA_self m ip (l ++ [c]))
      (by
        intro t ht
        rcases List.mem_append.mp ht with h1 | h2
        · exact hl t h1
        · rcases List.mem_singleton.mp h2 with rfl
          exact hcbound)
      (fun t ht => hc t (List.mem_cons_of_mem c ht))
      (by simp only [List.length_append, List.length_singleton,
            List.length_cons, List.length_nil] at hlen ⊢; omega)
    refine ⟨?_, ?_⟩
    · simp only [runAdmits, hstep, hrest.1, List.length_cons,
        List.replicate_succ]
    · simp only [runAdmits, hstep]
      rw [hrest.2]
      simp

/-- C2: each `admit` call first drops the client's timestamps outside the
trailing 60-second window, then denies without appending when the remaining
count is at least 30, else appends `now` and allows.  Consequently 30 calls
within 60 seconds are all allowed, a 31st within the same window is denied,
and once more than 60 seconds have elapsed since the first call a
subsequent call is allowed again. -/
theorem claim2_rate_limiter :
    (∀ (m : RLMap) (ip : String) (now : Int),
      rateLimiter m ip now =
        (let pruned := ((getA m ip).getD []).filter
            (fun t => decide (t > now - rateLimit.windowMs))
         if rateLimit.max ≤ pruned.length then (false, setA m ip pruned)
         else (true, setA m ip (pruned ++ [now])))) ∧
    (∀ (m : RLMap) (ip : String) (ts : List Int) (first t31 t32 : Int),
      getA m ip = none → ts.head? = some first → ts.length = 30 →
      (∀ t ∈ ts, first ≤ t ∧ t ≤ t31) → t31 - first < 60000 →
      60000 < t32 - first →
      (runAdmits m ip (ts ++ [t31, t32])).1 =
        List.replicate 30 true ++ [false, true]) := by
  refine ⟨rateLimiter_spec, ?_⟩
  intro m ip ts first t31 t32 hnone hhead hlen hbound hwin hafter
  obtain ⟨rest, rfl⟩ : ∃ rest, ts = first :: rest := by
    cases ts with
    | nil => simp at hhead
    | cons a rest =>
      have ha : a = first := by simpa using hhead
      exact ⟨rest, by rw [ha]⟩
  have hfirst_mem := hbound first (List.mem_cons_self first rest)
  have hrestlen : rest.length = 29 := by simpa using hlen
  have hstep1 : rateLimiter m ip first = (true, setA m ip [first]) := by
    rw [rateLimiter_spec]
    simp [hnone, show rateLimit.max = 30 from rfl]
  have hallow := runAdmits_allowed ip first t31
    (by rw [show rateLimit.windowMs = 60000 from rfl]; omega) rest
    (setA m ip [first]) [first] (getA_setA_self m ip [first])
    (by
      intro t ht
      have ht' : t = first := List.mem_singleton.mp ht
      rw [ht']
      exact ⟨le_refl first, hfirst_mem.2⟩)
    (fun t ht => hbound t (List.mem_cons_of_mem first ht))
    (by
      rw [show rateLimit.max = 30 from rfl]
      simp [hrestlen])
  have hrun_ts : runAdmits m ip (first :: rest) =
      (true :: (runAdmits (setA m ip [first]) ip rest).1,
       (runAdmits (setA m ip [first]) ip rest).2) := by
    simp [runAdmits, hstep1]
  have hget2 : getA (runAdmits (setA m ip [first]) ip rest).2 ip =
      some (first :: rest) := by
    simpa using hallow.2
  have hfilter31 : (first :: rest).filter
      (fun t => decide (t > t31 - rateLimit.windowMs)) = first :: rest := by
    apply List.filter_eq_self.mpr
    intro t ht
    have hb := hbound t ht
    rw [show rateLimit.windowMs = 60000 from rfl]
    simp only [decide_eq_true_eq]
    omega
  have hstep31 : rateLimiter (runAdmits (setA m ip [first]) ip rest).2 ip
      t31 =
      (false, setA (runAdmits (setA m ip [first]) ip rest).2 ip
        (first :: rest)) := by
    rw [rateLimiter_spec]
    simp only [hget2, Option.getD_some, hfilter31]
    rw [if_pos]
    rw [show rateLimit.max = 30 from rfl]
    simp [hrestlen]
  have hlen32 : ((first :: rest).filter
      (fun t => decide (t > t32 - rateLimit.windowMs))).length ≤ 29 := by
    have hdrop : (first :: rest).filter
        (fun t => decide (t > t32 - rateLimit.windowMs)) =
        rest.filter (fun t => decide (t > t32 - rateLimit.windowMs)) := by
      apply List.filter_cons_of_neg
      rw [show rateLimit.windowMs = 60000 from rfl]
      simp only [decide_eq_true_eq, not_lt]
      omega
    rw [hdrop, ← hrestlen]
    exact List.length_filter_le _ rest
  have hnotfull32 : ¬rateLimit.max ≤ ((first :: rest).filter
      (fun t => decide (t > t32 - rateLimit.windowMs))).length := by
    rw [show rateLimit.max = 30 from rfl]
    omega
  have hstep32 : (rateLimiter (setA (runAdmits (setA m ip [first]) ip
      rest).2 ip (first :: rest)) ip t32).1 = true := by
    rw [rateLimiter_spec]
    simp only [getA_setA_self, Option.getD_some]
    rw [if_neg hnotfull32]
  have hrun2 : (runAdmits (runAdmits (setA m ip [first]) ip rest).2 ip
      [t31, t32]).1 = [false, true] := by
    simp only [runAdmits, hstep31]
    simp [hstep32]
  rw [runAdmits_append, hrun_ts]
  simp only [hallow.1, hrun2, hrestlen]
  simp [List.replicate_succ]

/-- Witness for C2's burst scenario: 30 calls at milliseconds 0..29, a 31st
at 50 s, then one at 70 s. -/
theorem claim2_rate_limiter_witness :
    (runAdmits [] "203.0.113.7"
        (((List.range 30).map (fun n => (n : Int))) ++ [50000, 70000])).1 =
      List.replicate 30 true ++ [false, true] :=
  claim2_rate_limiter.2 [] "203.0.113.7"
    ((List.range 30).map (fun n => (n : Int))) 0 50000 70000 rfl (by decide)
    (by decide) (by decide) (by decide) (by decide)

/-- C7: after every `admit` call the stored list for the called client
contains no timestamp older than now − 60 s; after an accepted call its
size is at most 30; and a call arriving when the pruned list already holds
30 timestamps is denied with the list left exactly pruned. -/
theorem claim7_window_invariant (m : RLMap) (ip : String) (now : Int) :
    (∀ t ∈ (getA (rateLimiter m ip now).2 ip).getD [],
      now - rateLimit.windowMs ≤ t) ∧
    ((rateLimiter m ip now).1 = true →
      ((getA (rateLimiter m ip now).2 ip).getD []).length ≤ 30) ∧
    ((((getA m ip).getD []).filter
        (fun t => decide (t > now - rateLimit.windowMs))).length = 30 →
      (rateLimiter m ip now).1 = false ∧
      getA (rateLimiter m ip now).2 ip =
        some (((getA m ip).getD []).filter
          (fun t => decide (t > now - rateLimit.windowMs)))) := by
  have hspec := rateLimiter_spec m ip now
  have hmem : ∀ t ∈ ((getA m ip).getD []).filter
      (fun t => decide (t > now - rateLimit.windowMs)),
      now - rateLimit.windowMs < t := by
    intro t ht
    have := List.of_mem_filter ht
    simpa using this
  by_cases hfull : rateLimit.max ≤ (((getA m ip).getD []).filter
      (fun t => decide (t > now - rateLimit.windowMs))).length
  · simp only [if_pos hfull] at hspec
    rw [hspec]
    refine ⟨?_, ?_, ?_⟩
    · intro t ht
      simp only [getA_setA_self, Option.getD_some] at ht
      exact le_of_lt (hmem t ht)
    · intro hcontra
      simp at hcontra
    · intro _
      exact ⟨rfl, getA_setA_self m ip _⟩
  · simp only [if_neg hfull] at hspec
    rw [hspec]
    refine ⟨?_, ?_, ?_⟩
    · intro t ht
      simp only [getA_setA_self, Option.getD_some, List.mem_append,
        List.mem_singleton] at ht
      rcases ht with ht | ht
      · exact le_of_lt (hmem t ht)
      · rw [ht, show rateLimit.windowMs = 60000 from rfl]
        omega
    · intro _
      simp only [getA_setA_self, Option.getD_some, List.length_append,
        List.length_singleton]
      rw [show rateLimit.max = 30 from rfl] at hfull
      omega
    · intro hthirty
      rw [show rateLimit.max = 30 from rfl, hthirty] at hfull
      omega

/-- Witness for C7: a client whose pruned window already holds 30
timestamps is denied and its list stays exactly the pruned one. -/
theorem claim7_window_invariant_witness :
    (rateLimiter [("203.0.113.7", List.replicate 30 0)] "203.0.113.7" 1).1 =
      false ∧
    getA (rateLimiter [("203.0.113.7", List.replicate 30 0)]
        "203.0.113.7" 1).2 "203.0.113.7" = some (List.replicate 30 0) := by
  have h := (claim7_window_invariant [("203.0.113.7", List.replicate 30 0)]
    "203.0.113.7" 1).2.2 (by decide)
  refine ⟨h.1, ?_⟩
  rw [h.2]
  decide

/-- C8: the limiter's client-key set never loses a key (a pruned-empty
client is kept), every call puts the caller's key into the map, and a run
of calls by pairwise-distinct fresh clients grows the key set by exactly
the number of calls — unbounded growth under distinct-client traffic. -/
theorem claim8_unbounded_client_map :
    (∀ (m : RLMap) (ip : String) (now : Int),
      keysOf (rateLimiter m ip now).2 =
        if ip ∈ keysOf m then keysOf m else keysOf m ++ [ip]) ∧
    (∀ (m : RLMap) (ip : String) (now : Int) (c : String),
      c ∈ keysOf m → c ∈ keysOf (rateLimiter m ip now).2) ∧
    (∀ (m : RLMap) (calls : List (String × Int)),
      (calls.map Prod.fst).Nodup → (∀ p ∈ calls, p.1 ∉ keysOf m) →
      (keysOf (runCalls m calls)).length =
        (keysOf m).length + calls.length) := by
  have ha : ∀ (m : RLMap) (ip : String) (now : Int),
      keysOf (rateLimiter m ip now).2 =
        if ip ∈ keysOf m then keysOf m else keysOf m ++ [ip] := by
    intro m ip now
    rw [rateLimiter_spec]
    by_cases hfull : rateLimit.max ≤ (((getA m ip).getD []).filter
        (fun t => decide (t > now - rateLimit.windowMs))).length
    · simp only [if_pos hfull]
      exact keysOf_setA m ip _
    · simp only [if_neg hfull]
      exact keysOf_setA m ip _
  refine ⟨ha, ?_, ?_⟩
  · intro m ip now c hc
    rw [ha m ip now]
    by_cases h : ip ∈ keysOf m
    · simpa [h] using hc
    · simp only [if_neg h]
      exact List.mem_append_left _ hc
  · intro m calls
    induction calls generalizing m with
    | nil =>
      intro _ _
      simp [runCalls]
    | cons p calls ih =>
      obtain ⟨ip, t⟩ := p
      intro hnodup hfresh
      have hnd : ip ∉ calls.map Prod.fst ∧ (calls.map Prod.fst).Nodup :=
        List.nodup_cons.mp (by simpa using hnodup)
      have hipfresh : ip ∉ keysOf m := hfresh (ip, t) (List.mem_cons_self _ _)
      have hkeys : keysOf (rateLimiter m ip t).2 = keysOf m ++ [ip] := by
        rw [ha m ip t, if_neg hipfresh]
      have hrec := ih (rateLimiter m ip t).2 hnd.2
        (by
          intro q hq
          rw [hkeys]
          simp only [List.mem_append, List.mem_singleton]
          push_neg
          refine ⟨hfresh q (List.mem_cons_of_mem _ hq), ?_⟩
          intro hqip
          exact hnd.1 (hqip ▸ List.mem_map_of_mem Prod.fst hq)
        )
      simp only [runCalls, hrec, hkeys, List.length_append,
        List.length_singleton, List.length_cons, List.length_nil]
      omega

/-- Witness for C8: three fresh distinct clients grow an empty map to three
keys. -/
theorem claim8_unbounded_client_map_witness :
    (keysOf (runCalls [] [("10.0.0.1", 0), ("10.0.0.2", 1),
        ("10.0.0.3", 2)])).length = (keysOf ([] : RLMap)).length + 3 :=
  claim8_unbounded_client_map.2.2 []
    [("10.0.0.1", 0), ("10.0.0.2", 1), ("10.0.0.3", 2)]
    (by decide) (by decide)

/-- C5: after `set(k, v)` (overwriting any earlier entry for `k`), a `get(k)`
less than 300 s later returns `v`, a `get(k)` at age ≥ 300 s returns absent
as a normal `Option` value, and gets at any two in-window times with no
intervening set agree. -/
theorem claim5_cache_ttl (c : Cache) (k : String) (v : Value)
    (now u u' : Int) :
    (u - now < 300000 → cacheGet (cacheSet c k v now) k u = some v) ∧
    (300000 ≤ u - now → cacheGet (cacheSet c k v now) k u = none) ∧
    (u - now < 300000 → u' - now < 300000 →
      cacheGet (cacheSet c k v now) k u = cacheGet (cacheSet c k v now) k u') := by
  refine ⟨?_, ?_, ?_⟩
  · intro h
    simp only [cacheGet, cacheSet, getA_setA_self]
    rw [if_pos (by omega)]
  · intro h
    simp only [cacheGet, cacheSet, getA_setA_self]
    rw [if_neg (by omega)]
  · intro h h'
    simp only [cacheGet, cacheSet, getA_setA_self]
    rw [if_pos (by omega), if_pos (by omega)]

/-- Witness for C5: a get 299.999 s after the set still hits, one at exactly
300 s misses. -/
theorem claim5_cache_ttl_witness :
    cacheGet (cacheSet [] "k" (.raw "x") 0) "k" 299999 = some (.raw "x") ∧
    cacheGet (cacheSet [] "k" (.raw "x") 0) "k" 300000 = none :=
  ⟨(claim5_cache_ttl [] "k" (.raw "x") 0 299999 0).1 (by decide),
   (claim5_cache_ttl [] "k" (.raw "x") 0 300000 0).2.1 (by decide)⟩

/-- C3: a request denied by the rate limiter gets, on each of the three
endpoints, status 429 with the fixed `{ error }` body, an empty effect
trace (no cache read, no cache write, no upstream fetch), and the client's
stored window equal to the pruned list, with nothing appended. -/
theorem claim3_denied_requests (m : RLMap) (cache : Cache) (ip : String)
    (now : Int) (hden : (rateLimiter m ip now).1 = false) :
    (∀ (upstream : Except UpErr Value),
      handleCryptocurrencies m cache ip now upstream =
        { status := 429,
          body := .rateLimitError "Too many requests, please try again later.",
          rl := (rateLimiter m ip now).2, cache := cache, effects := [] }) ∧
    (∀ (id : String) (upstream : Except UpErr Value),
      handleCryptocurrencyDetail m cache ip now id upstream =
        { status := 429,
          body := .rateLimitError "Too many requests, please try again later.",
          rl := (rateLimiter m ip now).2, cache := cache, effects := [] }) ∧
    (∀ (id days : String)
      (upstream : Except UpErr (List (Int × Rat) × List (Int × Rat))),
      handleHistory m cache ip now id days upstream =
        { status := 429,
          body := .rateLimitError "Too many requests, please try again later.",
          rl := (rateLimiter m ip now).2, cache := cache, effects := [] }) ∧
    getA (rateLimiter m ip now).2 ip =
      some (((getA m ip).getD []).filter
        (fun t => decide (t > now - rateLimit.windowMs))) := by
  rcases hq : rateLimiter m ip now with ⟨b, m2⟩
  have hb : b = false := by
    rw [hq] at hden
    exact hden
  subst hb
  refine ⟨?_, ?_, ?_, ?_⟩
  · intro upstream
    simp only [handleCryptocurrencies, hq]
    rfl
  · intro id upstream
    simp only [handleCryptocurrencyDetail, hq]
    rfl
  · intro id days upstream
    simp only [handleHistory, hq]
    rfl
  · have hspec := rateLimiter_spec m ip now
    rw [hq] at hspec
    by_cases hfull : rateLimit.max ≤ (((getA m ip).getD []).filter
        (fun t => decide (t > now - rateLimit.windowMs))).length
    · simp only [if_pos hfull] at hspec
      have hm2 : m2 = setA m ip (((getA m ip).getD []).filter
          (fun t => decide (t > now - rateLimit.windowMs))) :=
        (Prod.mk.injEq _ _ _ _ ▸ hspec).2
      rw [hm2]
      exact getA_setA_self m ip _
    · simp only [if_neg hfull] at hspec
      have : False := by
        have := (Prod.mk.injEq _ _ _ _ ▸ hspec).1
        simp at this
      exact this.elim

/-- Witness for C3: a client with a full window is denied on the markets
endpoint without touching cache or upstream. -/
theorem claim3_denied_requests_witness :
    handleCryptocurrencies [("203.0.113.7", List.replicate 30 0)] []
        "203.0.113.7" 1 (.ok (.raw "fresh")) =
      { status := 429,
        body := .rateLimitError "Too many requests, please try again later.",
        rl := [("203.0.113.7", List.replicate 30 0)], cache := [],
        effects := [] } := by
  have h := (claim3_denied_requests [("203.0.113.7", List.replicate 30 0)]
    [] "203.0.113.7" 1 (by decide)).1 (.ok (.raw "fresh"))
  rw [h]
  decide

/-- C4: on each endpoint, an admitted cache-miss request whose upstream
call fails is answered with status mirroring the upstream status when one
is present (else 500) — via `errorStatusOf` — and a body holding the fixed
error string plus a details field carrying the upstream payload (or the
error message when absent/empty); the effect trace shows exactly one fetch
attempt. -/
theorem claim4_upstream_failure (m rl' : RLMap) (cache : Cache)
    (ip : String) (now : Int) (e : UpErr)
    (hallow : rateLimiter m ip now = (true, rl')) :
    (cacheGet cache "cryptocurrencies" now = none →
      handleCryptocurrencies m cache ip now (.error e) =
        { status := errorStatusOf e,
          body := .fetchError "Failed to fetch cryptocurrency data"
            (errorDetailsOf e),
          rl := rl', cache := cache,
          effects := [.cacheRead "cryptocurrencies", .fetch] }) ∧
    (∀ id : String, cacheGet cache ("crypto_" ++ id) now = none →
      handleCryptocurrencyDetail m cache ip now id (.error e) =
        { status := errorStatusOf e,
          body := .fetchError "Failed to fetch cryptocurrency details"
            (errorDetailsOf e),
          rl := rl', cache := cache,
          effects := [.cacheRead ("crypto_" ++ id), .fetch] }) ∧
    (∀ id days : String, cacheGet cache (historyCacheKey id days) now = none →
      handleHistory m cache ip now id days (.error e) =
        { status := errorStatusOf e,
          body := .fetchError "Failed to fetch historical price data"
            (errorDetailsOf e),
          rl := rl', cache := cache,
          effects := [.cacheRead (historyCacheKey id days), .fetch] }) ∧
    (∀ r : UpResponse, e.response = some r → 0 < r.status →
      errorStatusOf e = r.status) ∧
    (e.response = none → errorStatusOf e = 500) ∧
    (∀ r : UpResponse, e.response = some r → r.data ≠ "" →
      errorDetailsOf e = r.data) ∧
    (e.response = none → errorDetailsOf e = e.message) ∧
    (cacheGet cache "cryptocurrencies" now = none →
      (handleCryptocurrencies m cache ip now (.error e)).effects.count
        .fetch = 1) := by
  refine ⟨?_, ?_, ?_, ?_, ?_, ?_, ?_, ?_⟩
  · intro hmiss
    simp only [handleCryptocurrencies, hallow, hmiss]
  · intro id hmiss
    simp only [handleCryptocurrencyDetail, hallow, hmiss]
  · intro id days hmiss
    simp only [handleHistory, hallow, hmiss]
  · intro r hr hpos
    simp only [errorStatusOf, hr]
    rw [if_neg (by omega)]
  · intro hr
    simp only [errorStatusOf, hr]
  · intro r hr hd
    simp only [errorDetailsOf, hr]
    rw [if_neg hd]
  · intro hr
    simp only [errorDetailsOf, hr]
  · intro hmiss
    simp only [handleCryptocurrencies, hallow, hmiss]
    rfl

/-- Witness for C4: an upstream 500 on the markets endpoint yields a 500
with `error` and `details` fields. -/
theorem claim4_upstream_failure_witness :
    handleCryptocurrencies [] [] "203.0.113.7" 0
        (.error { response := some { status := 500, data := "boom" },
                  message := "Request failed with status code 500" }) =
      { status := 500,
        body := .fetchError "Failed to fetch cryptocurrency data" "boom",
        rl := [("203.0.113.7", [0])], cache := [],
        effects := [.cacheRead "cryptocurrencies", .fetch] } := by
  have h := (claim4_upstream_failure [] [("203.0.113.7", [0])] []
    "203.0.113.7" 0
    { response := some { status := 500, data := "boom" },
      message := "Request failed with status code 500" }
    (by decide)).1 rfl
  rw [h]
  decide

/-- C6: on each endpoint, an admitted request with a cache hit is served
the cached value with no upstream fetch and no cache write; only on a miss
does the handler fetch, store the (possibly transformed) result under the
key, and respond with it. -/
theorem claim6_cache_first (m rl' : RLMap) (cache : Cache) (ip : String)
    (now : Int) (hallow : rateLimiter m ip now = (true, rl')) :
    (∀ (v : Value) (upstream : Except UpErr Value),
      cacheGet cache "cryptocurrencies" now = some v →
      handleCryptocurrencies m cache ip now upstream =
        { status := 200, body := .payload v, rl := rl', cache := cache,
          effects := [.cacheRead "cryptocurrencies"] }) ∧
    (∀ d : Value, cacheGet cache "cryptocurrencies" now = none →
      handleCryptocurrencies m cache ip now (.ok d) =
        { status := 200, body := .payload d, rl := rl',
          cache := cacheSet cache "cryptocurrencies" d now,
          effects := [.cacheRead "cryptocurrencies", .fetch,
            .cacheWrite "cryptocurrencies"] }) ∧
    (∀ (id : String) (v : Value) (upstream : Except UpErr Value),
      cacheGet cache ("crypto_" ++ id) now = some v →
      handleCryptocurrencyDetail m cache ip now id upstream =
        { status := 200, body := .payload v, rl := rl', cache := cache,
          effects := [.cacheRead ("crypto_" ++ id)] }) ∧
    (∀ (id : String) (d : Value),
      cacheGet cache ("crypto_" ++ id) now = none →
      handleCryptocurrencyDetail m cache ip now id (.ok d) =
        { status := 200, body := .payload d, rl := rl',
          cache := cacheSet cache ("crypto_" ++ id) d now,
          effects := [.cacheRead ("crypto_" ++ id), .fetch,
            .cacheWrite ("crypto_" ++ id)] }) ∧
    (∀ (id days : String) (v : Value)
      (upstream : Except UpErr (List (Int × Rat) × List (Int × Rat))),
      cacheGet cache (historyCacheKey id days) now = some v →
      handleHistory m cache ip now id days upstream =
        { status := 200, body := .payload v, rl := rl', cache := cache,
          effects := [.cacheRead (historyCacheKey id days)] }) ∧
    (∀ (id days : String) (prices volumes : List (Int × Rat))
      (cs : List Candle),
      cacheGet cache (historyCacheKey id days) now = none →
      buildCandles prices volumes = .ok cs →
      handleHistory m cache ip now id days (.ok (prices, volumes)) =
        { status := 200, body := .payload (.candles cs), rl := rl',
          cache := cacheSet cache (historyCacheKey id days)
            (.candles cs) now,
          effects := [.cacheRead (historyCacheKey id days), .fetch,
            .cacheWrite (historyCacheKey id days)] }) := by
  refine ⟨?_, ?_, ?_, ?_, ?_, ?_⟩
  · intro v upstream hhit
    simp only [handleCryptocurrencies, hallow, hhit]
  · intro d hmiss
    simp only [handleCryptocurrencies, hallow, hmiss]
  · intro id v upstream hhit
    simp only [handleCryptocurrencyDetail, hallow, hhit]
  · intro id d hmiss
    simp only [handleCryptocurrencyDetail, hallow, hmiss]
  · intro id days v upstream hhit
    simp only [handleHistory, hallow, hhit]
  · intro id days prices volumes cs hmiss hok
    simp only [handleHistory, hallow, hmiss, hok]

/-- Witness for C6: a cache hit on the markets endpoint serves the cached
value and performs no fetch and no write. -/
theorem claim6_cache_first_witness :
    handleCryptocurrencies [] (cacheSet [] "cryptocurrencies" (.raw "xs") 0)
        "203.0.113.7" 5 (.ok (.raw "fresh")) =
      { status := 200, body := .payload (.raw "xs"),
        rl := [("203.0.113.7", [5])],
        cache := cacheSet [] "cryptocurrencies" (.raw "xs") 0,
        effects := [.cacheRead "cryptocurrencies"] } := by
  have h := (claim6_cache_first [] [("203.0.113.7", [5])]
    (cacheSet [] "cryptocurrencies" (.raw "xs") 0) "203.0.113.7" 5
    (by decide)).1 (.raw "xs") (.ok (.raw "fresh")) (by decide)
  rw [h]

/-- C9: the history cache key `"history_" ++ id ++ "_" ++ days` is not
injective: the distinct request pairs (id "a_b", days "7") and (id "a",
days "b_7") produce the same key, so after the first request populates the
cache the second is served the first one's cached candlestick data from
the cache, with no upstream fetch. -/
theorem claim9_history_key_collision :
    historyCacheKey "a_b" "7" = historyCacheKey "a" "b_7" ∧
    ("a_b", "7") ≠ (("a", "b_7") : String × String) ∧
    (let out1 := handleHistory [] [] "203.0.113.7" 0 "a_b" "7"
        (.ok ([(0, 10), (86400000, 12)], [(0, 100), (86400000, 150)]))
     let out2 := handleHistory out1.rl out1.cache "203.0.113.7" 1 "a" "b_7"
        (.ok ([(0, 1), (86400000, 2)], [(0, 3), (86400000, 4)]))
     out2.body = .payload (.candles
        [{ time := 1, open_ := 10, high := 12, low := 10, close := 12,
           volume := 150 }]) ∧
     out2.effects = [.cacheRead "history_a_b_7"] ∧
     Effect.fetch ∉ out2.effects) := by
  refine ⟨rfl, by decide, by decide⟩

/-- C10: the transform reads `volumes[i]` for every `i < prices.length`
with no length guard: whenever the volumes series is shorter than the
prices series the transform throws, the handler catches it and answers 500
with the history error body and no partial candle array; when
`volumes.length ≥ prices.length` every access is in bounds and the
transform succeeds. -/
theorem claim10_volume_index_guard :
    (∀ prices volumes : List (Int × Rat), volumes.length < prices.length →
      buildCandles prices volumes = .error volumeIndexError) ∧
    (∀ (m rl' : RLMap) (cache : Cache) (ip : String) (now : Int)
      (id days : String) (prices volumes : List (Int × Rat)),
      rateLimiter m ip now = (true, rl') →
      cacheGet cache (historyCacheKey id days) now = none →
      volumes.length < prices.length →
      handleHistory m cache ip now id days (.ok (prices, volumes)) =
        { status := 500,
          body := .fetchError "Failed to fetch historical price data"
            volumeIndexError,
          rl := rl', cache := cache,
          effects := [.cacheRead (historyCacheKey id days), .fetch] }) ∧
    (∀ prices volumes : List (Int × Rat), prices.length ≤ volumes.length →
      ∃ cs, buildCandles prices volumes = .ok cs) := by
  refine ⟨buildCandles_error, ?_, ?_⟩
  · intro m rl' cache ip now id days prices volumes hallow hmiss hlt
    simp only [handleHistory, hallow, hmiss,
      buildCandles_error prices volumes hlt]
  · intro prices volumes hle
    cases prices with
    | nil => exact ⟨[], rfl⟩
    | cons p ps =>
      cases volumes with
      | nil => simp at hle
      | cons v vs =>
        obtain ⟨cs, hcs, -, -⟩ := candleLoop_ok ps vs p (by simpa using hle)
        exact ⟨cs, hcs⟩

/-- Witness for C10: two price points but only one volume point make the
history endpoint answer 500 with the history error body. -/
theorem claim10_volume_index_guard_witness :
    handleHistory [] [] "203.0.113.7" 0 "bitcoin" "30"
        (.ok ([(0, 10), (86400000, 12)], [(0, 100)])) =
      { status := 500,
        body := .fetchError "Failed to fetch historical price data"
          volumeIndexError,
        rl := [("203.0.113.7", [0])], cache := [],
        effects := [.cacheRead (historyCacheKey "bitcoin" "30"),
          .fetch] } := by
  have h := claim10_volume_index_guard.2.1 [] [("203.0.113.7", [0])] []
    "203.0.113.7" 0 "bitcoin" "30" [(0, 10), (86400000, 12)] [(0, 100)]
    (by decide) rfl (by decide)
  rw [h]

/-- Witness for C9: the colliding key pair, evaluated. -/
theorem claim9_history_key_collision_witness :
    historyCacheKey "a_b" "7" = historyCacheKey "a" "b_7" :=
  claim9_history_key_collision.1
